import Mathlib

/-!
Verification of the enterprise licensing server
(`src/server/enterprise/server/api_server.go`).

Shallow embedding conventions:
* `time.Time` is modelled as `Int` (an abstract instant on a linear time
  line); the zero value `time.Time{}` is `0`, and `a.After(b)` is `a > b`.
* Go's `(T, error)` return idiom is modelled as `Except E T`.
* External library primitives used by the code — PEM/X.509 parsing, base64,
  JSON unmarshalling, SHA-256, RSA-PKCS1v15 verification, RFC3339 parsing —
  are abstracted as oracle functions collected in `CodeOps`; the control
  flow of `validateActivationCode` over their outcomes is what is embedded.
* The process-wide `sync/atomic.Value` cell `enterpriseExpiry` is modelled
  by `AtomicVal`: either no value of type `time.Time` is stored (so the
  type assertion `.(time.Time)` fails) or a `time.Time` is stored.
-/

namespace Pachyderm.Enterprise

/-- Bytes, as produced by base64 decoding or hashing. -/
abbrev Bytes := List Nat

/-- Result of `pem.Decode`: the block's `Bytes` field. -/
abbrev PemBlock := Bytes

/-- An RSA public key (abstract: the verification oracle interprets it). -/
structure RSAKey where
  n : Nat
  e : Nat
  deriving DecidableEq

/-- Result of `x509.ParsePKIXPublicKey`: an `interface{}` that is either an
RSA key or some other key type; `pub.(*rsa.PublicKey)` is the type switch. -/
inductive PubKey where
  | rsa (k : RSAKey)
  | other
  deriving DecidableEq

/-- The type assertion `pub.(*rsa.PublicKey)` from the source. -/
def asRSA : PubKey → Option RSAKey
  | .rsa k => some k
  | .other => none

/-- The JSON envelope `activationCode` from the source: fields `Token`
(raw string) and `Signature` (base64 text). -/
structure activationCode where
  Token : String
  Signature : String
  deriving DecidableEq

/-- The JSON payload `token` from the source: field `Expiry` (RFC3339 text). -/
structure token where
  Expiry : String
  deriving DecidableEq

/-- Oracles for the external library primitives the source calls; the
embedding is parametric in them. -/
structure CodeOps where
  pemDecode : Option PemBlock
  parsePKIX : PemBlock → Option PubKey
  base64Decode : String → Option Bytes
  unmarshalEnvelope : Bytes → Option activationCode
  sha256 : String → Bytes
  verifyPKCS1v15 : RSAKey → Bytes → Bytes → Bool
  unmarshalToken : String → Option token
  parseRFC3339 : String → Option Int

/-- The error outcomes of `validateActivationCode`, one constructor per
distinct error message in the source, in source order. -/
inductive VErr where
  | pemDecodeFailed
  | parseDERFailed
  | notRSAKey
  | codeNotBase64
  | codeNotJSON
  | sigNotBase64
  | invalidSignature
  | tokenNotJSON
  | expiryNotValid
  | alreadyExpired
  deriving DecidableEq

/-- Embedding of `validateActivationCode` (api_server.go:149-205): the key
preamble, base64 decode of the code, envelope unmarshal, signature decode,
SHA-256/RSA-PKCS1v15 verification over the raw `Token` bytes, token
unmarshal, RFC3339 parse of `Expiry`, and the `time.Now().After(expiry)`
expiry check, in source order. -/
def validateActivationCode (ops : CodeOps) (now : Int) (code : String) :
    Except VErr Int :=
  match ops.pemDecode with
  | none => .error .pemDecodeFailed
  | some block =>
  match ops.parsePKIX block with
  | none => .error .parseDERFailed
  | some pub =>
  match asRSA pub with
  | none => .error .notRSAKey
  | some rsaPub =>
  match ops.base64Decode code with
  | none => .error .codeNotBase64
  | some decodedActivationCode =>
  match ops.unmarshalEnvelope decodedActivationCode with
  | none => .error .codeNotJSON
  | some ac =>
  match ops.base64Decode ac.Signature with
  | none => .error .sigNotBase64
  | some decodedSignature =>
  if ops.verifyPKCS1v15 rsaPub (ops.sha256 ac.Token) decodedSignature then
    match ops.unmarshalToken ac.Token with
    | none => .error .tokenNotJSON
    | some tok =>
    match ops.parseRFC3339 tok.Expiry with
    | none => .error .expiryNotValid
    | some expiry =>
    if now > expiry then .error .alreadyExpired
    else .ok expiry
  else .error .invalidSignature

/-- The spec's error taxonomy for the Verifier (spec §4.1 steps 2-9),
written from the spec's words so the source's per-message errors can be
compared against it. -/
inductive SpecErrKind where
  | InvalidEncoding
  | MalformedCode
  | InvalidSignature
  | MalformedToken
  | MalformedExpiry
  | AlreadyExpired
  deriving DecidableEq

/-- Mapping each source error outcome to the spec's taxonomy (spec §4.1):
both base64 failures are `InvalidEncoding`; the key-preamble failures are
outside the taxonomy (`none`). -/
def specErrKind : VErr → Option SpecErrKind
  | .codeNotBase64 => some .InvalidEncoding
  | .codeNotJSON => some .MalformedCode
  | .sigNotBase64 => some .InvalidEncoding
  | .invalidSignature => some .InvalidSignature
  | .tokenNotJSON => some .MalformedToken
  | .expiryNotValid => some .MalformedExpiry
  | .alreadyExpired => some .AlreadyExpired
  | _ => none

/-- The contents of the `sync/atomic.Value` cell `enterpriseExpiry`:
either no `time.Time` has been stored (type assertion fails) or a
`time.Time` value is stored. -/
inductive AtomicVal where
  | noTime
  | timeVal (t : Int)
  deriving DecidableEq

/-- The type assertion `a.enterpriseExpiry.Load().(time.Time)`. -/
def loadTime : AtomicVal → Option Int
  | .noTime => none
  | .timeVal t => some t

/-- The enterprise `State` enum from the client API. -/
inductive State where
  | NONE
  | ACTIVE
  | EXPIRED
  deriving DecidableEq

/-- Error outcome of `GetState`: the cached value could not be read back
as a `time.Time`. -/
inductive GetStateErr where
  | loadFailed
  deriving DecidableEq

/-- Embedding of `GetState` (api_server.go:233-245): load the cached
expiry, return `NONE` for the zero value, `EXPIRED` when
`time.Now().After(expiry)`, and `ACTIVE` otherwise. -/
def GetState (now : Int) (cache : AtomicVal) : Except GetStateErr State :=
  match loadTime cache with
  | none => .error .loadFailed
  | some expiry =>
    if expiry = 0 then .ok .NONE
    else if now > expiry then .ok .EXPIRED
    else .ok .ACTIVE

/-- A protobuf `*types.Timestamp` pointer as carried in an
`EnterpriseRecord`: nil, a well-formed timestamp, or a value that
`types.TimestampFromProto` rejects. -/
inductive ProtoTimestamp where
  | nilTs
  | valid (t : Int)
  | invalid
  deriving DecidableEq

/-- The `types.TimestampFromProto` decoding call used at
api_server.go:112: fails on a nil or malformed timestamp. -/
def timestampFromProto : ProtoTimestamp → Option Int
  | .valid t => some t
  | .nilTs => none
  | .invalid => none

/-- The `types.TimestampProto` conversion used at api_server.go:216; a
`time.Time` on our abstract time line always converts (the Go error case
is an out-of-range instant, which the model's time line does not have). -/
def timestampProto (t : Int) : ProtoTimestamp := .valid t

/-- The persisted `ec.EnterpriseRecord`: the raw activation code and the
expiry as a protobuf timestamp. -/
structure EnterpriseRecord where
  ActivationCode : String
  Expires : ProtoTimestamp
  deriving DecidableEq

/-- The fixed key under which the single enterprise token lives
(api_server.go:51). -/
def enterpriseTokenKey : String := "token"

/-- Server state touched by `Activate`: the cached expiry cell and the
contents of the etcd collection, one record per key. -/
structure ServerState where
  enterpriseExpiry : AtomicVal
  store : String → Option EnterpriseRecord

/-- Error outcomes of `Activate`: a validation failure wrapping the
Verifier's reason (api_server.go:212), or an error from the STM commit
surfaced verbatim (api_server.go:227). -/
inductive ActErr where
  | validationError (e : VErr)
  | storeError (msg : String)
  deriving DecidableEq

/-- Embedding of `Activate` (api_server.go:208-230): validate the code;
on a validation error return it wrapped and touch nothing; otherwise run
the STM, whose body converts the expiry and blind-writes the record under
`enterpriseTokenKey`. `stmFail` is the external transaction outcome: when
the store fails to commit, the error is returned verbatim and no state
changes. `Activate` never touches `enterpriseExpiry`. -/
def Activate (ops : CodeOps) (now : Int) (stmFail : Option String)
    (code : String) (s : ServerState) : Except ActErr Unit × ServerState :=
  match validateActivationCode ops now code with
  | .error e => (.error (.validationError e), s)
  | .ok expiry =>
    match stmFail with
    | some msg => (.error (.storeError msg), s)
    | none =>
      (.ok (), { s with
        store := fun k =>
          if k = enterpriseTokenKey then
            some ⟨code, timestampProto expiry⟩
          else s.store k })

/-- The watch event kinds from the `watch` package. -/
inductive EventType where
  | put
  | delete
  | error
  deriving DecidableEq

/-- A watch event as seen by `watchEnterpriseToken` after
`ev.Unmarshal(&key, &record)` (whose error the source ignores): the event
type, the record it unmarshalled into, and the event's `Err` message. -/
structure Event where
  type : EventType
  record : EnterpriseRecord
  errMsg : String
  deriving DecidableEq

/-- Error outcomes that make one iteration of the streaming loop return
(triggering backoff and reconnect), one per `return` in
api_server.go:102-131. -/
inductive LoopErr where
  | watchClosed
  | parseTimestamp
  | cacheLoadFailed
  | streamError (msg : String)
  deriving DecidableEq

/-- Embedding of one iteration of the streaming loop of
`watchEnterpriseToken` (api_server.go:108-131): decode the record's
`Expires` BEFORE the event-type switch; then `Put` stores the decoded
expiry, `Delete` loads the cache and resets it to the zero time only when
the decoded expiry equals the cached one, and `Error` returns the
event's own error. -/
def processEvent (ev : Event) (cache : AtomicVal) :
    Except LoopErr AtomicVal :=
  match timestampFromProto ev.record.Expires with
  | none => .error .parseTimestamp
  | some expiry =>
    match ev.type with
    | .put => .ok (.timeVal expiry)
    | .delete =>
      match loadTime cache with
      | none => .error .cacheLoadFailed
      | some cachedExpiry =>
        if expiry = cachedExpiry then .ok (.timeVal 0) else .ok cache
    | .error => .error (.streamError ev.errMsg)

/-- Folding `processEvent` over a delivered event sequence, stopping at
the first iteration that returns an error. -/
def processEvents : List Event → AtomicVal → Except LoopErr AtomicVal
  | [], cache => .ok cache
  | ev :: rest, cache =>
    match processEvent ev cache with
    | .error e => .error e
    | .ok cache' => processEvents rest cache'

/-- Cache values reachable after construction:
`NewEnterpriseServer` stores `time.Time{}` (api_server.go:89), and the
only subsequent writers are successful loop iterations. -/
inductive ReachableCache : AtomicVal → Prop where
  | init : ReachableCache (.timeVal 0)
  | step (c c' : AtomicVal) (ev : Event) : ReachableCache c →
      processEvent ev c = .ok c' → ReachableCache c'

/-- Phases of the `watchEnterpriseToken` background task, cache value
attached; `terminated` is the phase in which the task has stopped from
within. -/
inductive SyncPhase where
  | connecting (c : AtomicVal)
  | streaming (c : AtomicVal)
  | backingOff (c : AtomicVal)
  | terminated
  deriving DecidableEq

/-- Modelled from the spec: the step relation of the Cache Synchronizer
loop. The streaming transitions embed `processEvent` from the source;
the backoff transitions model `backoff.RetryNotify` with
`backoff.NewInfiniteBackOff` and an always-nil notify function
(api_server.go:95,133-136), whose implementation lives in
`src/server/pkg/backoff` outside the given sources: per the spec,
every failure waits with unbounded exponential backoff (no retry-count
ceiling) and re-enters Connecting. -/
inductive SyncStep : SyncPhase → SyncPhase → Prop where
  | watchOk (c : AtomicVal) :
      SyncStep (.connecting c) (.streaming c)
  | watchErr (c : AtomicVal) :
      SyncStep (.connecting c) (.backingOff c)
  | eventOk (c c' : AtomicVal) (ev : Event) :
      processEvent ev c = .ok c' →
      SyncStep (.streaming c) (.streaming c')
  | eventErr (c : AtomicVal) (ev : Event) (e : LoopErr) :
      processEvent ev c = .error e →
      SyncStep (.streaming c) (.backingOff c)
  | channelClosed (c : AtomicVal) :
      SyncStep (.streaming c) (.backingOff c)
  | retry (c : AtomicVal) :
      SyncStep (.backingOff c) (.connecting c)

/-- A concrete activation code string for instantiations. -/
def sampleCode : String := "code"

/-- A concrete store-error message for instantiations. -/
def sampleMsg : String := "boom"

/-- A concrete oracle family on which every pipeline step succeeds and
the token's expiry parses to 3600 (one hour after instant 0). -/
def opsAllOk : CodeOps where
  pemDecode := some []
  parsePKIX := fun _ => some (.rsa ⟨1, 1⟩)
  base64Decode := fun _ => some []
  unmarshalEnvelope := fun _ => some ⟨"tok", "sig"⟩
  sha256 := fun _ => []
  verifyPKCS1v15 := fun _ _ _ => true
  unmarshalToken := fun _ => some ⟨"2000-01-01T01:00:00Z"⟩
  parseRFC3339 := fun _ => some 3600

/-- Like `opsAllOk` but base64 decoding fails on every input. -/
def opsB64Fail : CodeOps := { opsAllOk with base64Decode := fun _ => none }

/-- A concrete server state: freshly constructed cache, empty store. -/
def sampleState : ServerState where
  enterpriseExpiry := .timeVal 0
  store := fun _ => none

/-- A `Put` event whose record's expiry decodes to `t`. -/
def putEvent (t : Int) : Event := ⟨.put, ⟨sampleCode, .valid t⟩, sampleMsg⟩

/-- A `Delete` event whose record's expiry decodes to `t`. -/
def delEvent (t : Int) : Event := ⟨.delete, ⟨sampleCode, .valid t⟩, sampleMsg⟩

/-- An `Error` event whose record carries a nil `Expires`. -/
def errEventNil : Event := ⟨.error, ⟨sampleCode, .nilTs⟩, sampleMsg⟩

/-- A successful `Put` iteration stores exactly the decoded expiry. -/
theorem processEvent_put (ev : Event) (c : AtomicVal) (e : Int)
    (hty : ev.type = .put)
    (hdec : timestampFromProto ev.record.Expires = some e) :
    processEvent ev c = .ok (.timeVal e) := by
  simp [processEvent, hty, hdec]

/-- A successful loop iteration starting from a stored `time.Time` leaves
a stored `time.Time` in the cell. -/
theorem processEvent_ok_timeVal (ev : Event) (t : Int) (c' : AtomicVal)
    (h : processEvent ev (.timeVal t) = .ok c') : ∃ u, c' = .timeVal u := by
  unfold processEvent at h
  split at h
  · exact absurd h (by simp)
  · split at h
    · exact ⟨_, (Except.ok.injEq _ _ ▸ h).symm⟩
    · rw [show loadTime (.timeVal t) = some t from rfl] at h
      simp only [] at h
      split at h
      · exact ⟨0, (Except.ok.injEq _ _ ▸ h).symm⟩
      · exact ⟨t, (Except.ok.injEq _ _ ▸ h).symm⟩
    · exact absurd h (by simp)

/-- C1 (claim as stated, refuted): the claim demands `EXPIRED` whenever
the cached non-zero expiry `t` is not after `now`, in particular at
`t = now`; but `GetState` uses `time.Now().After(expiry)`, so at
`t = now = 1` it returns `ACTIVE`. -/
theorem C1_claim_counterexample :
    GetState 1 (AtomicVal.timeVal 1) = .ok State.ACTIVE ∧
    ¬ (∀ t now : Int, t ≠ 0 →
        GetState now (AtomicVal.timeVal t) =
          .ok (if t ≤ now then State.EXPIRED else State.ACTIVE)) := by
  constructor
  · rfl
  · intro h
    have h1 := h 1 1 (by decide)
    rw [show GetState 1 (AtomicVal.timeVal 1) = .ok State.ACTIVE from rfl]
      at h1
    simp at h1

/-- C1 (amended): for every cached non-zero expiry timestamp `t`,
`GetState` returns `EXPIRED` when `t` is strictly before the current
time and `ACTIVE` otherwise; in particular, when `t` equals the current
time it returns `ACTIVE`. -/
theorem C1_getstate_expired_iff_strictly_past (t now : Int) (h : t ≠ 0) :
    GetState now (AtomicVal.timeVal t) =
      .ok (if t < now then State.EXPIRED else State.ACTIVE) := by
  simp only [GetState, loadTime, h, if_false]
  by_cases hlt : t < now
  · simp [hlt]
  · simp [hlt]

/-- C1 witness: a non-zero cached expiry strictly in the past yields
`EXPIRED` at the concrete instants 2 and 5. -/
theorem C1_getstate_witness :
    GetState 5 (AtomicVal.timeVal 2) =
      .ok (if (2 : Int) < 5 then State.EXPIRED else State.ACTIVE) :=
  C1_getstate_expired_iff_strictly_past 2 5 (by decide)

/-- C2: with the embedded key parsing successfully, each failure class of
`validateActivationCode`, checked in source order, yields its own error
and no timestamp: code not base64 (InvalidEncoding per the spec
taxonomy), envelope not JSON (MalformedCode), signature not base64
(InvalidEncoding), RSA-PKCS1v15/SHA-256 verification failure over the raw
token bytes (InvalidSignature), token not JSON (MalformedToken), expiry
not RFC3339 (MalformedExpiry), expiry already past (AlreadyExpired). -/
theorem C2_validate_error_taxonomy (ops : CodeOps) (now : Int)
    (code : String) (b : PemBlock) (k : RSAKey)
    (hpem : ops.pemDecode = some b)
    (hx : ops.parsePKIX b = some (PubKey.rsa k)) :
    (ops.base64Decode code = none →
      validateActivationCode ops now code = .error .codeNotBase64 ∧
      specErrKind .codeNotBase64 = some .InvalidEncoding) ∧
    (∀ d, ops.base64Decode code = some d →
      ops.unmarshalEnvelope d = none →
      validateActivationCode ops now code = .error .codeNotJSON ∧
      specErrKind .codeNotJSON = some .MalformedCode) ∧
    (∀ d ac, ops.base64Decode code = some d →
      ops.unmarshalEnvelope d = some ac →
      ops.base64Decode ac.Signature = none →
      validateActivationCode ops now code = .error .sigNotBase64 ∧
      specErrKind .sigNotBase64 = some .InvalidEncoding) ∧
    (∀ d ac sg, ops.base64Decode code = some d →
      ops.unmarshalEnvelope d = some ac →
      ops.base64Decode ac.Signature = some sg →
      ops.verifyPKCS1v15 k (ops.sha256 ac.Token) sg = false →
      validateActivationCode ops now code = .error .invalidSignature ∧
      specErrKind .invalidSignature = some .InvalidSignature) ∧
    (∀ d ac sg, ops.base64Decode code = some d →
      ops.unmarshalEnvelope d = some ac →
      ops.base64Decode ac.Signature = some sg →
      ops.verifyPKCS1v15 k (ops.sha256 ac.Token) sg = true →
      ops.unmarshalToken ac.Token = none →
      validateActivationCode ops now code = .error .tokenNotJSON ∧
      specErrKind .tokenNotJSON = some .MalformedToken) ∧
    (∀ d ac sg tok, ops.base64Decode code = some d →
      ops.unmarshalEnvelope d = some ac →
      ops.base64Decode ac.Signature = some sg →
      ops.verifyPKCS1v15 k (ops.sha256 ac.Token) sg = true →
      ops.unmarshalToken ac.Token = some tok →
      ops.parseRFC3339 tok.Expiry = none →
      validateActivationCode ops now code = .error .expiryNotValid ∧
      specErrKind .expiryNotValid = some .MalformedExpiry) ∧
    (∀ d ac sg tok e, ops.base64Decode code = some d →
      ops.unmarshalEnvelope d = some ac →
      ops.base64Decode ac.Signature = some sg →
      ops.verifyPKCS1v15 k (ops.sha256 ac.Token) sg = true →
      ops.unmarshalToken ac.Token = some tok →
      ops.parseRFC3339 tok.Expiry = some e →
      e < now →
      validateActivationCode ops now code = .error .alreadyExpired ∧
      specErrKind .alreadyExpired = some .AlreadyExpired) := by
  refine ⟨?_, ?_, ?_, ?_, ?_, ?_, ?_⟩
  · intro h
    exact ⟨by simp [validateActivationCode, asRSA, hpem, hx, h], rfl⟩
  · intro d h1 h2
    exact ⟨by simp [validateActivationCode, asRSA, hpem, hx, h1, h2], rfl⟩
  · intro d ac h1 h2 h3
    exact ⟨by simp [validateActivationCode, asRSA, hpem, hx, h1, h2, h3],
      rfl⟩
  · intro d ac sg h1 h2 h3 h4
    exact ⟨by simp [validateActivationCode, asRSA, hpem, hx, h1, h2, h3,
      h4], rfl⟩
  · intro d ac sg h1 h2 h3 h4 h5
    exact ⟨by simp [validateActivationCode, asRSA, hpem, hx, h1, h2, h3,
      h4, h5], rfl⟩
  · intro d ac sg tok h1 h2 h3 h4 h5 h6
    exact ⟨by simp [validateActivationCode, asRSA, hpem, hx, h1, h2, h3,
      h4, h5, h6], rfl⟩
  · intro d ac sg tok e h1 h2 h3 h4 h5 h6 h7
    refine ⟨?_, rfl⟩
    have hgt : now > e := h7
    simp [validateActivationCode, asRSA, hpem, hx, h1, h2, h3, h4, h5,
      h6, hgt]

/-- C2 witness: on oracles whose base64 decoding fails, the concrete
code is rejected with the first failure class. -/
theorem C2_validate_witness :
    validateActivationCode opsB64Fail 0 sampleCode =
      .error .codeNotBase64 ∧
    specErrKind .codeNotBase64 = some .InvalidEncoding :=
  (C2_validate_error_taxonomy opsB64Fail 0 sampleCode [] ⟨1, 1⟩ rfl
    rfl).1 rfl

/-- C3: when every pipeline step succeeds — the code base64-decodes, the
envelope and token unmarshal, the signature verifies over the raw token
bytes, and the expiry parses to an instant strictly in the future —
`validateActivationCode` returns exactly that expiry and no error. -/
theorem C3_validate_accepts_valid_code (ops : CodeOps) (now : Int)
    (code : String) (b : PemBlock) (k : RSAKey) (d sg : Bytes)
    (ac : activationCode) (tok : token) (e : Int)
    (hpem : ops.pemDecode = some b)
    (hx : ops.parsePKIX b = some (PubKey.rsa k))
    (h1 : ops.base64Decode code = some d)
    (h2 : ops.unmarshalEnvelope d = some ac)
    (h3 : ops.base64Decode ac.Signature = some sg)
    (h4 : ops.verifyPKCS1v15 k (ops.sha256 ac.Token) sg = true)
    (h5 : ops.unmarshalToken ac.Token = some tok)
    (h6 : ops.parseRFC3339 tok.Expiry = some e)
    (h7 : now < e) :
    validateActivationCode ops now code = .ok e := by
  have hng : ¬ now > e := by omega
  simp [validateActivationCode, asRSA, hpem, hx, h1, h2, h3, h4, h5, h6,
    hng]

/-- C3 witness: on the all-succeeding oracles with expiry 3600 (one hour
after instant 0), the concrete code validates to exactly 3600. -/
theorem C3_validate_witness :
    validateActivationCode opsAllOk 0 sampleCode = .ok 3600 :=
  C3_validate_accepts_valid_code opsAllOk 0 sampleCode [] ⟨1, 1⟩ [] []
    ⟨"tok", "sig"⟩ ⟨"2000-01-01T01:00:00Z"⟩ 3600 rfl rfl rfl rfl rfl rfl
    rfl rfl (by decide)

/-- C4: when the Verifier rejects the code, `Activate` returns an error
wrapping the Verifier's reason and returns the server state completely
unchanged — no store write, no cache mutation — for every transaction
outcome. -/
theorem C4_activate_validation_error (ops : CodeOps) (now : Int)
    (stmFail : Option String) (code : String) (s : ServerState) (e : VErr)
    (h : validateActivationCode ops now code = .error e) :
    Activate ops now stmFail code s = (.error (.validationError e), s) := by
  simp [Activate, h]

/-- C4 witness: a code whose base64 decoding fails leaves the concrete
server state untouched and surfaces the wrapped reason. -/
theorem C4_activate_witness :
    Activate opsB64Fail 0 none sampleCode sampleState =
      (.error (.validationError .codeNotBase64), sampleState) :=
  C4_activate_validation_error opsB64Fail 0 none sampleCode sampleState
    .codeNotBase64 rfl

/-- C5: when the Verifier accepts the code with expiry `e`, `Activate`
surfaces any store error verbatim with no state change, on store success
commits under the single fixed key exactly the record
`{ActivationCode := code, Expires := e}` leaving every other key
untouched, and in all cases never mutates the cached snapshot. -/
theorem C5_activate_commit (ops : CodeOps) (now : Int) (code : String)
    (s : ServerState) (e : Int)
    (h : validateActivationCode ops now code = .ok e) :
    (∀ msg, Activate ops now (some msg) code s =
      (.error (.storeError msg), s)) ∧
    ((Activate ops now none code s).1 = .ok () ∧
      (Activate ops now none code s).2.store enterpriseTokenKey =
        some ⟨code, timestampProto e⟩ ∧
      ∀ key, key ≠ enterpriseTokenKey →
        (Activate ops now none code s).2.store key = s.store key) ∧
    (∀ stmFail, (Activate ops now stmFail code s).2.enterpriseExpiry =
      s.enterpriseExpiry) := by
  refine ⟨?_, ⟨?_, ?_, ?_⟩, ?_⟩
  · intro msg
    simp [Activate, h]
  · simp [Activate, h]
  · simp [Activate, h]
  · intro key hkey
    simp [Activate, h, hkey]
  · intro stmFail
    cases stmFail <;> simp [Activate, h]

/-- C5 witness: with the all-succeeding oracles, a concrete store
failure is surfaced verbatim with the state unchanged, and a concrete
successful commit writes exactly the record under the fixed key. -/
theorem C5_activate_witness :
    Activate opsAllOk 0 (some sampleMsg) sampleCode sampleState =
      (.error (.storeError sampleMsg), sampleState) ∧
    (Activate opsAllOk 0 none sampleCode sampleState).2.store
        enterpriseTokenKey =
      some ⟨sampleCode, timestampProto 3600⟩ :=
  ⟨(C5_activate_commit opsAllOk 0 sampleCode sampleState 3600 rfl).1
      sampleMsg,
   (C5_activate_commit opsAllOk 0 sampleCode sampleState 3600
      rfl).2.1.2.1⟩

/-- C6: a `Put` event with decodable expiry `e` replaces the snapshot
wholesale with `e` regardless of its prior value, and after a delivered
sequence of such `Put` events ending in one decoding to `e` the snapshot
equals `e` — last `Put` wins, no merge. -/
theorem C6_put_last_wins :
    (∀ ev c e, ev.type = .put →
      timestampFromProto ev.record.Expires = some e →
      processEvent ev c = .ok (.timeVal e)) ∧
    (∀ evs ev c e,
      (∀ x ∈ evs, x.type = .put ∧
        (timestampFromProto x.record.Expires).isSome = true) →
      ev.type = .put →
      timestampFromProto ev.record.Expires = some e →
      processEvents (evs ++ [ev]) c = .ok (.timeVal e)) := by
  constructor
  · exact fun ev c e hty hdec => processEvent_put ev c e hty hdec
  · intro evs
    induction evs with
    | nil =>
      intro ev c e _ hty hdec
      simp [processEvents, processEvent_put ev c e hty hdec]
    | cons x rest ih =>
      intro ev c e hall hty hdec
      obtain ⟨hxty, hxdec⟩ := hall x (by simp)
      obtain ⟨tx, htx⟩ := Option.isSome_iff_exists.mp hxdec
      have hx : processEvent x c = .ok (.timeVal tx) :=
        processEvent_put x c tx hxty htx
      have hrest : ∀ y ∈ rest, y.type = .put ∧
          (timestampFromProto y.record.Expires).isSome = true :=
        fun y hy => hall y (by simp [hy])
      simpa [processEvents, hx] using
        ih ev (.timeVal tx) e hrest hty hdec

/-- C6 witness: delivering three concrete `Put` events leaves the
snapshot at the last one's expiry. -/
theorem C6_put_witness :
    processEvent (putEvent 7) (AtomicVal.timeVal 3) =
      .ok (.timeVal 7) ∧
    processEvents [putEvent 1, putEvent 2, putEvent 7]
      (AtomicVal.timeVal 3) = .ok (.timeVal 7) :=
  ⟨C6_put_last_wins.1 (putEvent 7) (.timeVal 3) 7 rfl rfl,
   C6_put_last_wins.2 [putEvent 1, putEvent 2] (putEvent 7)
     (.timeVal 3) 7 (by decide) rfl rfl⟩

/-- C7: a `Delete` event whose decoded expiry equals the cached value
resets the snapshot to the zero value; one whose decoded expiry differs
leaves the snapshot completely unchanged, and either way the iteration
succeeds so the loop proceeds to the next event. -/
theorem C7_delete_reset_or_frame (ev : Event) (c : AtomicVal) (e t : Int)
    (hty : ev.type = .delete)
    (hdec : timestampFromProto ev.record.Expires = some e)
    (hload : loadTime c = some t) :
    (e = t → processEvent ev c = .ok (.timeVal 0)) ∧
    (e ≠ t → processEvent ev c = .ok c) := by
  constructor <;> intro h <;> simp [processEvent, hty, hdec, hload, h]

/-- C7 witness: concrete matching and non-matching `Delete` events
against a cache holding 3. -/
theorem C7_delete_witness :
    processEvent (delEvent 3) (AtomicVal.timeVal 3) =
      .ok (.timeVal 0) ∧
    processEvent (delEvent 4) (AtomicVal.timeVal 3) =
      .ok (.timeVal 3) :=
  ⟨(C7_delete_reset_or_frame (delEvent 3) (.timeVal 3) 3 3 rfl rfl
      rfl).1 rfl,
   (C7_delete_reset_or_frame (delEvent 4) (.timeVal 3) 4 3 rfl rfl
      rfl).2 (by decide)⟩

/-- C8: every cache value reachable after construction is a stored
`time.Time` (the cell is initialized to the zero time and only ever
rewritten with `time.Time` values), so `GetState`'s error branch is
unreachable on reachable states, and on the never-populated (zero)
snapshot it returns `NONE` rather than failing. -/
theorem C8_getstate_never_errors :
    (∀ c, ReachableCache c → ∃ t, c = .timeVal t) ∧
    (∀ now c, ReachableCache c → ∃ r, GetState now c = .ok r) ∧
    (∀ now : Int, GetState now (.timeVal 0) = .ok .NONE) := by
  have key : ∀ c, ReachableCache c → ∃ t, c = AtomicVal.timeVal t := by
    intro c h
    induction h with
    | init => exact ⟨0, rfl⟩
    | step c c' ev _ hP ih =>
      obtain ⟨t, rfl⟩ := ih
      exact processEvent_ok_timeVal ev t c' hP

  refine ⟨key, ?_, ?_⟩
  · intro now c h
    obtain ⟨t, rfl⟩ := key c h
    by_cases ht : t = 0
    · exact ⟨.NONE, by simp [GetState, loadTime, ht]⟩
    · by_cases hgt : now > t
      · exact ⟨.EXPIRED, by simp [GetState, loadTime, ht, hgt]⟩
      · exact ⟨.ACTIVE, by simp [GetState, loadTime, ht, hgt]⟩
  · intro now
    rfl

/-- C8 witness: at the freshly constructed snapshot, `GetState` succeeds
(with `NONE`) at the concrete instant 0. -/
theorem C8_getstate_witness :
    ∃ r, GetState 0 (AtomicVal.timeVal 0) = .ok r :=
  C8_getstate_never_errors.2.1 0 (.timeVal 0) ReachableCache.init

/-- C9: no step of the Cache Synchronizer reaches the terminated phase;
every failure lands in the backoff phase, whose only outgoing step —
always enabled — re-enters the connecting phase; so a terminal state is
never reachable from a stream failure. -/
theorem C9_sync_loop_never_terminates :
    (∀ s s', SyncStep s s' → s' ≠ SyncPhase.terminated) ∧
    (∀ c s', SyncStep (.backingOff c) s' → s' = .connecting c) ∧
    (∀ c, SyncStep (.backingOff c) (.connecting c)) := by
  refine ⟨?_, ?_, ?_⟩
  · intro s s' h
    cases h <;> simp
  · intro c s' h
    cases h
    rfl
  · intro c
    exact .retry c

/-- C9 witness: the step taken on a successful watch establishment at
the freshly constructed cache does not reach the terminated phase. -/
theorem C9_sync_witness :
    SyncPhase.streaming (AtomicVal.timeVal 0) ≠ SyncPhase.terminated :=
  C9_sync_loop_never_terminates.1 (.connecting (.timeVal 0))
    (.streaming (.timeVal 0)) (.watchOk (.timeVal 0))

/-- C10: the expiry is decoded before the event-type dispatch, so every
event whose record lacks a decodable `Expires` — whatever its type,
including `Error` events carrying no record — makes the iteration return
the timestamp-decode error; and the branch returning the event's own
error is reached only on an `Error` event whose record's expiry does
decode, in which case the returned message is the event's. -/
theorem C10_decode_before_dispatch :
    (∀ ev c, timestampFromProto ev.record.Expires = none →
      processEvent ev c = .error .parseTimestamp) ∧
    (∀ ev c m, processEvent ev c = .error (.streamError m) →
      ev.type = .error ∧
      (timestampFromProto ev.record.Expires).isSome = true ∧
      m = ev.errMsg) := by
  constructor
  · intro ev c h
    simp [processEvent, h]
  · intro ev c m h
    unfold processEvent at h
    split at h
    · simp at h
    · rename_i e hdec
      split at h
      · simp at h
      · split at h
        · simp at h
        · split at h <;> simp at h
      · rename_i hty
        refine ⟨hty, by simp [hdec], ?_⟩
        simp at h
        exact h.symm

/-- C10 witness: an `Error` event whose record carries a nil `Expires`
returns the timestamp-decode error, not its own stream error. -/
theorem C10_decode_witness :
    processEvent errEventNil (AtomicVal.timeVal 0) =
      .error .parseTimestamp :=
  C10_decode_before_dispatch.1 errEventNil (.timeVal 0) rfl

end Pachyderm.Enterprise
